import Mathlib

/-!
Verification of the optimistic task-list controller
(`frontend/src/pages/exercises/tasks/ExerciseTaskList.tsx`) and, where the
repository code is not part of the provided sources, of behaviour modelled
from the specification (the status-update handler and the backend create
service). The client state, its event handlers (`createTask`, `deleteTask`,
`handleInputChange`, `validateForm`, the modal helpers) and the status
boards are shallowly embedded as pure Lean functions; JavaScript `Set` is
modelled as a duplicate-free `List Nat`, JS stable `Array.prototype.sort`
as a stable insertion sort, and JS `String.prototype.trim` as dropping whitespace
characters from both ends of the character list.
-/

/-- Task status enumeration (`TaskStatus` in the source). -/
inductive TaskStatus
  | UPCOMING
  | IN_PROGRESS
  | COMPLETED
deriving DecidableEq, Repr

/-- Task priority enumeration (`TaskPriority` in the source). -/
inductive TaskPriority
  | LOW
  | MEDIUM
  | HIGH
deriving DecidableEq, Repr

/-- The Task entity (`ExampleTask` in the source). Opaque string ids and
ISO timestamp strings are modelled by natural numbers; `createdAt` carries
the epoch value that `new Date(x).getTime()` would produce. -/
structure ExampleTask where
  id : Nat
  name : String
  description : Option String
  status : TaskStatus
  priority : TaskPriority
  createdAt : Nat
  updatedAt : Nat
deriving DecidableEq, Repr

/-- Whitespace test used by the JS trim model (space, tab, newline,
carriage return — the characters relevant to form input). -/
def isJsWhitespace (c : Char) : Bool :=
  c = ' ' || c = '\t' || c = '\n' || c = '\r'

/-- Drop trailing whitespace from a character list. -/
def trimRightChars (l : List Char) : List Char :=
  (l.reverse.dropWhile isJsWhitespace).reverse

/-- Drop leading and trailing whitespace, the model of
JS `String.prototype.trim`. -/
def trimChars (l : List Char) : List Char :=
  trimRightChars (l.dropWhile isJsWhitespace)

/-- JS `s.trim()` on Lean strings. -/
def jsTrim (s : String) : String :=
  ⟨trimChars s.data⟩

/-- JS `s.includes(pat)`: some index of `s` starts the pattern. -/
def strIncludes (s pat : String) : Bool :=
  (List.range (s.data.length + 1)).any (fun i => pat.data.isPrefixOf (s.data.drop i))

/-- JS `Set.add` on the duplicate-free list model. -/
def insertId (id : Nat) (l : List Nat) : List Nat :=
  if l.contains id then l else id :: l

/-- JS `Set.delete` on the duplicate-free list model. -/
def removeId (id : Nat) (l : List Nat) : List Nat :=
  l.filter (fun x => x != id)


/-- Client state of the `ExerciseTaskList` component: the task collection,
the deletion machinery (`deletingTasks` set, confirmation modal,
`taskToDelete`, `deleteError`) and the creation machinery (create modal,
`isCreating`, `createError`, form data, the `name` entry of
`validationErrors`, modelled as an `Option`). -/
structure ListState where
  tasks : List ExampleTask
  deletingTasks : List Nat
  showDeleteModal : Bool
  taskToDelete : Option ExampleTask
  deleteError : Option String
  showCreateModal : Bool
  isCreating : Bool
  createError : Option String
  formName : String
  formPriority : TaskPriority
  nameValidationError : Option String
deriving DecidableEq, Repr

/-- The `upcomingTasks` board filter. -/
def upcomingTasks (ts : List ExampleTask) : List ExampleTask :=
  ts.filter (fun t => t.status == TaskStatus.UPCOMING)

/-- The `inProgressTasks` board filter. -/
def inProgressTasks (ts : List ExampleTask) : List ExampleTask :=
  ts.filter (fun t => t.status == TaskStatus.IN_PROGRESS)

/-- The `completedTasks` board filter. -/
def completedTasks (ts : List ExampleTask) : List ExampleTask :=
  ts.filter (fun t => t.status == TaskStatus.COMPLETED)

/-- `resetForm`: clear the form fields, the validation errors and the
create error. -/
def resetForm (st : ListState) : ListState :=
  { st with formName := "", formPriority := TaskPriority.MEDIUM,
            nameValidationError := none, createError := none }

/-- `handleCloseModal`: hide the create modal and reset the form. -/
def handleCloseModal (st : ListState) : ListState :=
  resetForm { st with showCreateModal := false }

/-- `handleCloseDeleteModal`: hide the confirmation dialog, clear the
selected task and the delete error. -/
def handleCloseDeleteModal (st : ListState) : ListState :=
  { st with showDeleteModal := false, taskToDelete := none, deleteError := none }

/-- `validateForm`: record a validation error when the trimmed name is
empty; the returned flag tells whether validation passed. -/
def validateForm (st : ListState) : ListState × Bool :=
  if jsTrim st.formName = "" then
    ({ st with nameValidationError := some "Task name is required" }, false)
  else
    ({ st with nameValidationError := none }, true)

/-- Form input events: typing in the name field or choosing a priority. -/
inductive InputEvent
  | setName (v : String)
  | setPriority (p : TaskPriority)
deriving DecidableEq, Repr

/-- `handleInputChange`: string values are stored trimmed; any pending
create error and the field's validation error are cleared. -/
def handleInputChange (st : ListState) (e : InputEvent) : ListState :=
  match e with
  | InputEvent.setName v =>
      { st with formName := jsTrim v, createError := none,
                nameValidationError := none }
  | InputEvent.setPriority p =>
      { st with formPriority := p, createError := none }

/-- Folding a sequence of form input events over a state. -/
def applyEvents (st : ListState) (es : List InputEvent) : ListState :=
  es.foldl handleInputChange st

/-- Name field of the POST payload: `formData.name.trim()`. -/
def createPayloadName (st : ListState) : String :=
  jsTrim st.formName

/-- Disabledness of the create-modal submit button:
`isCreating || !formData.name.trim()`. -/
def submitDisabled (st : ListState) : Bool :=
  st.isCreating || (jsTrim st.formName == "")

/-- Disabledness of the per-row delete button and of the confirmation
button for a given task id: `deletingTasks.has(task.id)`. -/
def deleteControlDisabled (st : ListState) (id : Nat) : Bool :=
  st.deletingTasks.contains id

/-- Comparator of the rollback sort:
`new Date(a.createdAt).getTime() - new Date(b.createdAt).getTime()`
interpreted as an ascending order on `createdAt`. -/
def createdAtLE (a b : ExampleTask) : Prop :=
  a.createdAt ≤ b.createdAt

instance : DecidableRel createdAtLE :=
  fun a b => Nat.decLe a.createdAt b.createdAt

instance : IsTotal ExampleTask createdAtLE :=
  ⟨fun a b => Nat.le_total a.createdAt b.createdAt⟩

instance : IsTrans ExampleTask createdAtLE :=
  ⟨fun _ _ _ => Nat.le_trans⟩

/-- JS `Array.prototype.sort` with the `createdAt` comparator, modelled as
a stable sort. -/
def jsSortByCreatedAt (l : List ExampleTask) : List ExampleTask :=
  List.insertionSort createdAtLE l

/-- Outcome of the DELETE request as observed in the catch clause:
success, a thrown `Error` with a message, or a thrown non-`Error` value. -/
inductive DeleteOutcome
  | success
  | failure (msg : String)
  | failureNonError
deriving DecidableEq, Repr

/-- The not-found test of the catch clause:
`error.message.includes('404') || error.message.includes('not found')`. -/
def isNotFoundError (msg : String) : Bool :=
  strIncludes msg "404" || strIncludes msg "not found"

/-- Error-message classification of the catch clause for failures that are
rolled back. -/
def classifyDeleteError (msg : String) : String :=
  if strIncludes msg "500" || strIncludes msg "server" then
    "Server error occurred. Please try again later."
  else if strIncludes msg "network" || strIncludes msg "fetch" then
    "Network error. Please check your connection and try again."
  else msg

/-- The `deleteTask` handler: guard on a selected task, add its id to the
deleting set, clear the delete error, optimistically filter the task out;
on success close the dialog; on a not-found failure close the dialog
without rollback (the early `return` still runs the `finally`); on any
other failure reinsert the task and re-sort by `createdAt`, recording the
classified error; in all cases finally remove the id from the deleting
set. -/
def deleteTask (st : ListState) (o : DeleteOutcome) : ListState :=
  match st.taskToDelete with
  | none => st
  | some task =>
    let st1 := { st with
      deletingTasks := insertId task.id st.deletingTasks,
      deleteError := none,
      tasks := st.tasks.filter (fun t => t.id != task.id) }
    let st2 :=
      match o with
      | DeleteOutcome.success => handleCloseDeleteModal st1
      | DeleteOutcome.failure msg =>
          if isNotFoundError msg then handleCloseDeleteModal st1
          else { st1 with
            tasks := jsSortByCreatedAt (st1.tasks ++ [task]),
            deleteError := some (classifyDeleteError msg) }
      | DeleteOutcome.failureNonError =>
          { st1 with
            tasks := jsSortByCreatedAt (st1.tasks ++ [task]),
            deleteError := some "Failed to delete task. Please try again." }
    { st2 with deletingTasks := removeId task.id st2.deletingTasks }

/-- Outcome of the POST request: a returned task, a falsy response, or a
thrown value (whose message is present when it was an `Error`). -/
inductive CreateOutcome
  | success (t : ExampleTask)
  | nullResponse
  | exception (msg : Option String)
deriving DecidableEq, Repr

/-- The `createTask` handler: return early when validation fails (no
request is issued); otherwise mark creating, clear the create error, and
on success append the server task and close the modal, on a falsy response
or a thrown value record an error message; finally clear `isCreating`. -/
def createTask (st : ListState) (o : CreateOutcome) : ListState :=
  let vr := validateForm st
  if vr.2 = false then vr.1
  else
    let st1 := { vr.1 with isCreating := true, createError := none }
    let st2 :=
      match o with
      | CreateOutcome.success t =>
          handleCloseModal { st1 with tasks := st1.tasks ++ [t] }
      | CreateOutcome.nullResponse =>
          { st1 with createError := some "Failed to create task" }
      | CreateOutcome.exception msg =>
          { st1 with createError := some (msg.getD "Failed to create task") }
    { st2 with isCreating := false }

/-- State of the status-update machinery: the task collection, the
"updating" id set and the update error. -/
structure UpdateState where
  tasks : List ExampleTask
  updatingTasks : List Nat
  updateError : Option String
deriving DecidableEq, Repr

/-- Outcome of the PUT request: the server-returned task, a failure
response, or a thrown exception. -/
inductive UpdateOutcome
  | success (server : ExampleTask)
  | failure (msg : String)
  | exception (msg : String)
deriving DecidableEq, Repr

/-- Modelled from the spec: the optimistic status/priority update handler
(`updateTaskStatus` described in spec sections 4.3 and 8; the handler's
code is repository code not present under the provided sources). Snapshot
the record, mutate the local copy immediately while adding the id to the
"updating" set; on success replace the local copy with the server-returned
task; on failure or exception revert the local copy to the pre-mutation
snapshot and surface the error; remove the id from the "updating" set
unconditionally on every completion path. -/
def updateTaskPriority (st : UpdateState) (id : Nat) (newP : TaskPriority)
    (o : UpdateOutcome) : UpdateState :=
  match st.tasks.find? (fun t => t.id == id) with
  | none => st
  | some snapshot =>
    let st1 := { st with
      updatingTasks := insertId id st.updatingTasks,
      tasks := st.tasks.map (fun (t : ExampleTask) =>
        if t.id == id then { t with priority := newP } else t) }
    let st2 :=
      match o with
      | UpdateOutcome.success server =>
          { st1 with
            tasks := st1.tasks.map (fun (t : ExampleTask) => if t.id == id then server else t),
            updateError := none }
      | UpdateOutcome.failure msg =>
          { st1 with
            tasks := st1.tasks.map (fun (t : ExampleTask) => if t.id == id then snapshot else t),
            updateError := some msg }
      | UpdateOutcome.exception msg =>
          { st1 with
            tasks := st1.tasks.map (fun (t : ExampleTask) => if t.id == id then snapshot else t),
            updateError := some msg }
    { st2 with updatingTasks := removeId id st2.updatingTasks }

/-- Result of the backend create operation. -/
inductive CreateResult
  | validationError
  | created (t : ExampleTask)
deriving DecidableEq, Repr

/-- Largest id present in the store. -/
def maxId (store : List ExampleTask) : Nat :=
  store.foldr (fun t m => max t.id m) 0

/-- Modelled from the spec: id generation of the backend store (spec
section 3: "id: opaque unique identifier, generated at creation"; the
backend service code is repository code not present under the provided
sources). A number beyond every stored id stands in for a fresh UUID. -/
def freshId (store : List ExampleTask) : Nat :=
  maxId store + 1

/-- Modelled from the spec: the backend create operation
(`create(input: {name, description?, priority?})` of spec section 4.1;
`exampleTask.service.ts` is repository code not present under the provided
sources). Fail with a validation error when the name is missing or empty
after trimming; otherwise produce a task with a generated id, default
status UPCOMING and the provided or defaulted priority, timestamps set by
the store. -/
def serviceCreate (store : List ExampleTask) (name : Option String)
    (descr : Option String) (prio : Option TaskPriority) (now : Nat) :
    CreateResult :=
  match name with
  | none => CreateResult.validationError
  | some n =>
    if jsTrim n = "" then CreateResult.validationError
    else CreateResult.created
      { id := freshId store, name := n, description := descr,
        status := TaskStatus.UPCOMING, priority := prio.getD TaskPriority.MEDIUM,
        createdAt := now, updatedAt := now }

/-- Kind of an in-flight mutation on a record. -/
inductive MutKind
  | deleteMut
  | updateMut
deriving DecidableEq, Repr

/-- Abstract in-flight state of the controller: the id set backing the
disabled UI controls (spec section 4.3: "a set of identifiers currently
in flight for deletion or update") and the multiset of outstanding server
requests, one entry per issued, not yet settled mutation. -/
structure FlightState where
  inFlight : List Nat
  pending : List (Nat × MutKind)
deriving DecidableEq, Repr

/-- Initial in-flight state: nothing pending. -/
def initialFlight : FlightState :=
  { inFlight := [], pending := [] }

/-- Disabledness of the mutation controls for an id:
`deletingTasks.has(task.id)` on the row and confirmation buttons. -/
def controlsDisabled (s : FlightState) (id : Nat) : Bool :=
  s.inFlight.contains id

/-- Modelled from the spec: the controller's mutation protocol (spec
sections 4.3 and 4.5; the delete half follows the `deletingTasks` guard of
the source, the update half is repository code not present under the
provided sources). A mutation starts only through a control that is not
disabled, adding the id to the in-flight set and issuing a request; a
settling request removes its entry and releases the id unconditionally. -/
inductive FStep : FlightState → FlightState → Prop
  | start (s : FlightState) (k : MutKind) (id : Nat) :
      controlsDisabled s id = false →
      FStep s { inFlight := insertId id s.inFlight,
                pending := (id, k) :: s.pending }
  | finish (s : FlightState) (k : MutKind) (id : Nat) :
      (id, k) ∈ s.pending →
      FStep s { inFlight := removeId id s.inFlight,
                pending := s.pending.erase (id, k) }

/-- States reachable from the initial in-flight state. -/
inductive FReachable : FlightState → Prop
  | init : FReachable initialFlight
  | step {s s' : FlightState} : FReachable s → FStep s s' → FReachable s'

/-- The inductive invariant of the in-flight protocol: pending ids are
pairwise distinct and the control-disabling set holds exactly the pending
ids. -/
def FlightInv (s : FlightState) : Prop :=
  (s.pending.map Prod.fst).Nodup ∧
    ∀ id : Nat, id ∈ s.inFlight ↔ id ∈ s.pending.map Prod.fst

/-- Sample task with priority LOW, used to instantiate the theorems. -/
def sampleLow : ExampleTask :=
  { id := 1, name := "Write spec", description := none,
    status := TaskStatus.UPCOMING, priority := TaskPriority.LOW,
    createdAt := 10, updatedAt := 10 }

/-- Sample task with priority HIGH. -/
def sampleHigh : ExampleTask :=
  { id := 2, name := "Review", description := none,
    status := TaskStatus.IN_PROGRESS, priority := TaskPriority.HIGH,
    createdAt := 20, updatedAt := 20 }

/-- Sample completed task. -/
def sampleDone : ExampleTask :=
  { id := 3, name := "Ship", description := none,
    status := TaskStatus.COMPLETED, priority := TaskPriority.MEDIUM,
    createdAt := 30, updatedAt := 30 }

/-- Sample controller state with the delete confirmation open on
`sampleLow` and a filled-in create form. -/
def sampleState : ListState :=
  { tasks := [sampleLow, sampleHigh], deletingTasks := [],
    showDeleteModal := true, taskToDelete := some sampleLow,
    deleteError := none, showCreateModal := true, isCreating := false,
    createError := none, formName := "Write spec",
    formPriority := TaskPriority.HIGH, nameValidationError := none }

/-- Sample update-machinery state holding only `sampleLow`. -/
def sampleUpdateState : UpdateState :=
  { tasks := [sampleLow], updatingTasks := [], updateError := none }

theorem mem_insertId {j id : Nat} {l : List Nat} :
    j ∈ insertId id l ↔ j = id ∨ j ∈ l := by
  unfold insertId
  by_cases h : id ∈ l
  · rw [if_pos (by simpa using h)]
    constructor
    · exact fun hj => Or.inr hj
    · rintro (rfl | hj)
      exacts [h, hj]
  · rw [if_neg (by simpa using h)]
    simp [List.mem_cons]

theorem not_mem_removeId (id : Nat) (l : List Nat) : id ∉ removeId id l := by
  unfold removeId
  intro h
  have := List.of_mem_filter h
  simp at this

theorem mem_removeId {j id : Nat} {l : List Nat} :
    j ∈ removeId id l ↔ j ∈ l ∧ j ≠ id := by
  unfold removeId
  simp [List.mem_filter]

/- Trim lemmas: `trimChars` is idempotent and its fixed points have no
whitespace at either end. -/

theorem dropWhile_dropWhile (p : Char → Bool) (l : List Char) :
    (l.dropWhile p).dropWhile p = l.dropWhile p := by
  induction l with
  | nil => rfl
  | cons a l ih =>
    by_cases h : p a
    · simp [List.dropWhile_cons, h, ih]
    · simp [List.dropWhile_cons, h]

theorem length_trimRightChars_le (l : List Char) :
    (trimRightChars l).length ≤ l.length := by
  unfold trimRightChars
  have h := (List.dropWhile_suffix (l := l.reverse) isJsWhitespace).sublist.length_le
  simpa using h

theorem dropWhile_head_false {p : Char → Bool} {l : List Char}
    (h : l.dropWhile p = l) {c : Char} (hc : l.head? = some c) : p c = false := by
  cases l with
  | nil => simp at hc
  | cons a l =>
    have ha : a = c := by simpa using hc
    subst ha
    by_cases hp : p a
    · exfalso
      rw [List.dropWhile_cons, if_pos hp] at h
      have hlen := congrArg List.length h
      have hle := (List.dropWhile_suffix (l := l) p).sublist.length_le
      simp at hlen
      omega
    · simpa using hp

theorem trimRightChars_fixed {l : List Char}
    (h : l.dropWhile isJsWhitespace = l) :
    (trimRightChars l).dropWhile isJsWhitespace = trimRightChars l := by
  have hpre : trimRightChars l <+: l := by
    rw [← List.reverse_suffix]
    unfold trimRightChars
    rw [List.reverse_reverse]
    exact List.dropWhile_suffix isJsWhitespace
  cases htl : trimRightChars l with
  | nil => rfl
  | cons a t =>
    rw [htl] at hpre
    obtain ⟨rest, hrest⟩ := hpre
    cases l with
    | nil => simp at hrest
    | cons b l' =>
      have hab : a = b := by
        have := hrest
        simp only [List.cons_append] at this
        exact (List.cons.injEq _ _ _ _ ▸ this).1
      have hb : isJsWhitespace b = false :=
        dropWhile_head_false h (by simp)
      rw [List.dropWhile_cons, hab, hb]
      simp

theorem trimChars_idem (l : List Char) :
    trimChars (trimChars l) = trimChars l := by
  have hd : (l.dropWhile isJsWhitespace).dropWhile isJsWhitespace
      = l.dropWhile isJsWhitespace := dropWhile_dropWhile _ l
  have hfix := trimRightChars_fixed hd
  show trimRightChars ((trimChars l).dropWhile isJsWhitespace) = trimChars l
  unfold trimChars
  rw [hfix]
  unfold trimRightChars
  rw [List.reverse_reverse, dropWhile_dropWhile]

theorem jsTrim_idem (s : String) : jsTrim (jsTrim s) = jsTrim s := by
  unfold jsTrim
  exact String.ext (by simpa using trimChars_idem s.data)

theorem jsTrim_empty : jsTrim "" = "" := rfl

theorem trimChars_head_not_ws {l : List Char} (h : trimChars l = l)
    {c : Char} (hc : l.head? = some c) : isJsWhitespace c = false := by
  by_contra hws
  have hws' : isJsWhitespace c = true := by
    cases hv : isJsWhitespace c
    · exact absurd hv hws
    · rfl
  cases l with
  | nil => simp at hc
  | cons a l' =>
    have ha : a = c := by simpa using hc
    subst ha
    have hdrop : (a :: l').dropWhile isJsWhitespace = l'.dropWhile isJsWhitespace := by
      rw [List.dropWhile_cons, if_pos hws']
    have hlen1 : (trimChars (a :: l')).length ≤ (l'.dropWhile isJsWhitespace).length := by
      unfold trimChars
      rw [hdrop]
      exact length_trimRightChars_le _
    have hlen2 : (l'.dropWhile isJsWhitespace).length ≤ l'.length :=
      (List.dropWhile_suffix (l := l') isJsWhitespace).sublist.length_le
    have := congrArg List.length h
    simp at this
    omega

theorem trimChars_getLast_not_ws {l : List Char} (h : trimChars l = l)
    {c : Char} (hc : l.getLast? = some c) : isJsWhitespace c = false := by
  have hdlen : (l.dropWhile isJsWhitespace).length = l.length := by
    have hle1 : (trimChars l).length ≤ (l.dropWhile isJsWhitespace).length := by
      unfold trimChars
      exact length_trimRightChars_le _
    have hle2 : (l.dropWhile isJsWhitespace).length ≤ l.length :=
      (List.dropWhile_suffix (l := l) isJsWhitespace).sublist.length_le
    have := congrArg List.length h
    omega
  have hdeq : l.dropWhile isJsWhitespace = l :=
    (List.dropWhile_suffix (l := l) isJsWhitespace).sublist.eq_of_length hdlen
  have hrfix : trimRightChars l = l := by
    have := h
    unfold trimChars at this
    rw [hdeq] at this
    exact this
  have hrev : l.reverse.dropWhile isJsWhitespace = l.reverse := by
    have hlen : (l.reverse.dropWhile isJsWhitespace).length = l.reverse.length := by
      have := congrArg List.length hrfix
      unfold trimRightChars at this
      simpa using this
    exact (List.dropWhile_suffix (l := l.reverse) isJsWhitespace).sublist.eq_of_length hlen
  have hhead : l.reverse.head? = some c := by
    rw [List.head?_reverse]
    exact hc
  exact dropWhile_head_false hrev hhead

/-- C9: for every invocation of the delete handler with a selected task,
the task's id is removed from the "deleting" set on every completion path
— success, the not-found early return, and any other failure — so after
the operation settles the id is never left as a member of the set. -/
theorem deleteTask_releases_id (st : ListState) (task : ExampleTask)
    (o : DeleteOutcome) (hsel : st.taskToDelete = some task) :
    task.id ∉ (deleteTask st o).deletingTasks := by
  unfold deleteTask
  rw [hsel]
  cases o with
  | success => exact not_mem_removeId _ _
  | failure msg =>
    by_cases h : isNotFoundError msg
    · simp only [h, if_true]
      exact not_mem_removeId _ _
    · simp only [h, if_false]
      exact not_mem_removeId _ _
  | failureNonError => exact not_mem_removeId _ _

/-- Witness for C9 at the sample state, exercising the success path. -/
theorem deleteTask_releases_id_witness :
    sampleState.taskToDelete = some sampleLow
    ∧ sampleLow.id ∉ (deleteTask sampleState DeleteOutcome.success).deletingTasks :=
  ⟨rfl, deleteTask_releases_id sampleState sampleLow DeleteOutcome.success rfl⟩

/-- C2: for every optimistic delete whose server request fails with a
not-found error, the task stays removed from the local collection (no
reinsertion) and the confirmation dialog is closed with no blocking
error. -/
theorem deleteTask_notFound_closes (st : ListState) (task : ExampleTask)
    (msg : String) (hsel : st.taskToDelete = some task)
    (h404 : isNotFoundError msg = true) :
    (deleteTask st (DeleteOutcome.failure msg)).tasks
        = st.tasks.filter (fun t => t.id != task.id)
    ∧ (deleteTask st (DeleteOutcome.failure msg)).showDeleteModal = false
    ∧ (deleteTask st (DeleteOutcome.failure msg)).deleteError = none := by
  unfold deleteTask
  rw [hsel]
  simp [h404, handleCloseDeleteModal]

/-- Witness for C2 on a message containing "404". -/
theorem deleteTask_notFound_closes_witness :
    sampleState.taskToDelete = some sampleLow
    ∧ isNotFoundError "HTTP error 404" = true
    ∧ ((deleteTask sampleState (DeleteOutcome.failure "HTTP error 404")).tasks
        = sampleState.tasks.filter (fun t => t.id != sampleLow.id)
      ∧ (deleteTask sampleState (DeleteOutcome.failure "HTTP error 404")).showDeleteModal = false
      ∧ (deleteTask sampleState (DeleteOutcome.failure "HTTP error 404")).deleteError = none) :=
  ⟨rfl, by decide,
   deleteTask_notFound_closes sampleState sampleLow "HTTP error 404" rfl (by decide)⟩

/-- C3: for every optimistic delete that fails for a reason other than
not-found, the removed task is reinserted at the deterministic position
given by the stable ascending sort on `createdAt` (so the resulting
collection is sorted by creation time and is a permutation of the
optimistically filtered collection plus the task), a retry-capable error
message is set, and the confirmation dialog remains open. -/
theorem deleteTask_failure_rollback (st : ListState) (task : ExampleTask)
    (msg : String) (hsel : st.taskToDelete = some task)
    (hopen : st.showDeleteModal = true)
    (hnot : isNotFoundError msg = false) :
    (deleteTask st (DeleteOutcome.failure msg)).tasks
        = jsSortByCreatedAt (st.tasks.filter (fun t => t.id != task.id) ++ [task])
    ∧ ((deleteTask st (DeleteOutcome.failure msg)).tasks).Sorted createdAtLE
    ∧ ((deleteTask st (DeleteOutcome.failure msg)).tasks).Perm
        (st.tasks.filter (fun t => t.id != task.id) ++ [task])
    ∧ task ∈ (deleteTask st (DeleteOutcome.failure msg)).tasks
    ∧ (deleteTask st (DeleteOutcome.failure msg)).deleteError
        = some (classifyDeleteError msg)
    ∧ (deleteTask st (DeleteOutcome.failure msg)).showDeleteModal = true := by
  have htasks : (deleteTask st (DeleteOutcome.failure msg)).tasks
      = jsSortByCreatedAt (st.tasks.filter (fun t => t.id != task.id) ++ [task]) := by
    unfold deleteTask
    rw [hsel]
    simp [hnot]
  have hperm : ((deleteTask st (DeleteOutcome.failure msg)).tasks).Perm
      (st.tasks.filter (fun t => t.id != task.id) ++ [task]) := by
    rw [htasks]
    exact List.perm_insertionSort createdAtLE _
  refine ⟨htasks, ?_, hperm, ?_, ?_, ?_⟩
  · rw [htasks]
    exact List.sorted_insertionSort createdAtLE _
  · exact hperm.mem_iff.mpr (by simp)
  · unfold deleteTask
    rw [hsel]
    simp [hnot]
  · unfold deleteTask
    rw [hsel]
    simp [hnot, hopen]

/-- Witness for C3 on a server-error message (no "404"/"not found"). -/
theorem deleteTask_failure_rollback_witness :
    sampleState.taskToDelete = some sampleLow
    ∧ sampleState.showDeleteModal = true
    ∧ isNotFoundError "HTTP error 500" = false
    ∧ ((deleteTask sampleState (DeleteOutcome.failure "HTTP error 500")).tasks
        = jsSortByCreatedAt
            (sampleState.tasks.filter (fun t => t.id != sampleLow.id) ++ [sampleLow])
      ∧ ((deleteTask sampleState (DeleteOutcome.failure "HTTP error 500")).tasks).Sorted createdAtLE
      ∧ ((deleteTask sampleState (DeleteOutcome.failure "HTTP error 500")).tasks).Perm
          (sampleState.tasks.filter (fun t => t.id != sampleLow.id) ++ [sampleLow])
      ∧ sampleLow ∈ (deleteTask sampleState (DeleteOutcome.failure "HTTP error 500")).tasks
      ∧ (deleteTask sampleState (DeleteOutcome.failure "HTTP error 500")).deleteError
          = some (classifyDeleteError "HTTP error 500")
      ∧ (deleteTask sampleState (DeleteOutcome.failure "HTTP error 500")).showDeleteModal = true) :=
  ⟨rfl, rfl, by decide,
   deleteTask_failure_rollback sampleState sampleLow "HTTP error 500" rfl rfl (by decide)⟩

/-- C4: for every create mutation that fails (falsy response or thrown
exception), the local task collection is unchanged, the create modal
remains open, and an error message is attached to it. -/
theorem createTask_failure_keeps (st : ListState) (m : Option String)
    (hname : jsTrim st.formName ≠ "") (hopen : st.showCreateModal = true) :
    ((createTask st CreateOutcome.nullResponse).tasks = st.tasks
      ∧ (createTask st CreateOutcome.nullResponse).showCreateModal = true
      ∧ (createTask st CreateOutcome.nullResponse).createError
          = some "Failed to create task")
    ∧ ((createTask st (CreateOutcome.exception m)).tasks = st.tasks
      ∧ (createTask st (CreateOutcome.exception m)).showCreateModal = true
      ∧ (createTask st (CreateOutcome.exception m)).createError
          = some (m.getD "Failed to create task")) := by
  unfold createTask validateForm
  simp [hname, hopen]

/-- Witness for C4 at the sample state. -/
theorem createTask_failure_keeps_witness :
    jsTrim sampleState.formName ≠ ""
    ∧ sampleState.showCreateModal = true
    ∧ (((createTask sampleState CreateOutcome.nullResponse).tasks = sampleState.tasks
      ∧ (createTask sampleState CreateOutcome.nullResponse).showCreateModal = true
      ∧ (createTask sampleState CreateOutcome.nullResponse).createError
          = some "Failed to create task")
    ∧ ((createTask sampleState (CreateOutcome.exception (some "boom"))).tasks = sampleState.tasks
      ∧ (createTask sampleState (CreateOutcome.exception (some "boom"))).showCreateModal = true
      ∧ (createTask sampleState (CreateOutcome.exception (some "boom"))).createError
          = some ((some "boom").getD "Failed to create task"))) :=
  ⟨by decide, rfl,
   createTask_failure_keeps sampleState (some "boom") (by decide) rfl⟩

/-- C5: for every create mutation that succeeds, the server-returned task
is appended at the end of the local collection, every previously present
task is kept unchanged in its original order (the old collection is a
prefix of the new one), and the create modal is closed and its form
reset. -/
theorem createTask_success_appends (st : ListState) (t : ExampleTask)
    (hname : jsTrim st.formName ≠ "") :
    (createTask st (CreateOutcome.success t)).tasks = st.tasks ++ [t]
    ∧ ((createTask st (CreateOutcome.success t)).tasks).take st.tasks.length = st.tasks
    ∧ (createTask st (CreateOutcome.success t)).showCreateModal = false
    ∧ (createTask st (CreateOutcome.success t)).formName = ""
    ∧ (createTask st (CreateOutcome.success t)).formPriority = TaskPriority.MEDIUM
    ∧ (createTask st (CreateOutcome.success t)).nameValidationError = none
    ∧ (createTask st (CreateOutcome.success t)).createError = none := by
  unfold createTask validateForm
  simp [hname, handleCloseModal, resetForm, List.take_left]

/-- Witness for C5 at the sample state. -/
theorem createTask_success_appends_witness :
    jsTrim sampleState.formName ≠ ""
    ∧ ((createTask sampleState (CreateOutcome.success sampleDone)).tasks
          = sampleState.tasks ++ [sampleDone]
      ∧ ((createTask sampleState (CreateOutcome.success sampleDone)).tasks).take
            sampleState.tasks.length = sampleState.tasks
      ∧ (createTask sampleState (CreateOutcome.success sampleDone)).showCreateModal = false
      ∧ (createTask sampleState (CreateOutcome.success sampleDone)).formName = ""
      ∧ (createTask sampleState (CreateOutcome.success sampleDone)).formPriority
          = TaskPriority.MEDIUM
      ∧ (createTask sampleState (CreateOutcome.success sampleDone)).nameValidationError = none
      ∧ (createTask sampleState (CreateOutcome.success sampleDone)).createError = none) :=
  ⟨by decide, createTask_success_appends sampleState sampleDone (by decide)⟩

/-- C8: the three status boards partition the local collection — their
concatenation is a permutation of the task list, and a task belongs to a
board exactly when its status matches that board. -/
theorem boards_partition (ts : List ExampleTask) :
    ((upcomingTasks ts ++ inProgressTasks ts) ++ completedTasks ts).Perm ts
    ∧ (∀ t, t ∈ upcomingTasks ts ↔ t ∈ ts ∧ t.status = TaskStatus.UPCOMING)
    ∧ (∀ t, t ∈ inProgressTasks ts ↔ t ∈ ts ∧ t.status = TaskStatus.IN_PROGRESS)
    ∧ (∀ t, t ∈ completedTasks ts ↔ t ∈ ts ∧ t.status = TaskStatus.COMPLETED) := by
  refine ⟨?_, ?_, ?_, ?_⟩
  · induction ts with
    | nil => simp [upcomingTasks, inProgressTasks, completedTasks]
    | cons a ts ih =>
      cases ha : a.status with
      | UPCOMING =>
        have e1 : upcomingTasks (a :: ts) = a :: upcomingTasks ts := by
          simp [upcomingTasks, List.filter_cons, ha]
        have e2 : inProgressTasks (a :: ts) = inProgressTasks ts := by
          simp [inProgressTasks, List.filter_cons, ha]
        have e3 : completedTasks (a :: ts) = completedTasks ts := by
          simp [completedTasks, List.filter_cons, ha]
        rw [e1, e2, e3]
        simpa using ih.cons a
      | IN_PROGRESS =>
        have e1 : upcomingTasks (a :: ts) = upcomingTasks ts := by
          simp [upcomingTasks, List.filter_cons, ha]
        have e2 : inProgressTasks (a :: ts) = a :: inProgressTasks ts := by
          simp [inProgressTasks, List.filter_cons, ha]
        have e3 : completedTasks (a :: ts) = completedTasks ts := by
          simp [completedTasks, List.filter_cons, ha]
        rw [e1, e2, e3]
        have hshape : (upcomingTasks ts ++ (a :: inProgressTasks ts)) ++ completedTasks ts
            = upcomingTasks ts ++ (a :: (inProgressTasks ts ++ completedTasks ts)) := by
          simp
        rw [hshape]
        refine List.Perm.trans List.perm_middle ?_
        refine List.Perm.cons a ?_
        simpa [List.append_assoc] using ih
      | COMPLETED =>
        have e1 : upcomingTasks (a :: ts) = upcomingTasks ts := by
          simp [upcomingTasks, List.filter_cons, ha]
        have e2 : inProgressTasks (a :: ts) = inProgressTasks ts := by
          simp [inProgressTasks, List.filter_cons, ha]
        have e3 : completedTasks (a :: ts) = a :: completedTasks ts := by
          simp [completedTasks, List.filter_cons, ha]
        rw [e1, e2, e3]
        refine List.Perm.trans List.perm_middle ?_
        exact List.Perm.cons a ih
  · intro t
    simp [upcomingTasks, List.mem_filter]
  · intro t
    simp [inProgressTasks, List.mem_filter]
  · intro t
    simp [completedTasks, List.mem_filter]

/-- A trim-fixed form name stays trim-fixed under any sequence of input
events, since every stored string value is trimmed at the input event. -/
theorem applyEvents_formName_fixed (es : List InputEvent) (st : ListState)
    (hfix : jsTrim st.formName = st.formName) :
    jsTrim (applyEvents st es).formName = (applyEvents st es).formName := by
  induction es generalizing st with
  | nil => exact hfix
  | cons e es ih =>
    cases e with
    | setName v =>
      exact ih _ (by simp [handleInputChange, jsTrim_idem])
    | setPriority p =>
      exact ih _ (by simpa [handleInputChange] using hfix)

/-- C10: string values entered into the create form are stored trimmed at
each input event; a trim-fixed stored name remains trim-fixed across any
event sequence (hence has no leading or trailing whitespace); the name
sent in the create payload equals its own trim; and the submit button is
disabled whenever the stored name trims to the empty string. -/
theorem form_input_trimmed (st : ListState) (v : String) (es : List InputEvent)
    (hfix : jsTrim st.formName = st.formName) :
    (handleInputChange st (InputEvent.setName v)).formName = jsTrim v
    ∧ jsTrim (applyEvents st es).formName = (applyEvents st es).formName
    ∧ createPayloadName (applyEvents st es) = (applyEvents st es).formName
    ∧ createPayloadName st = jsTrim (createPayloadName st)
    ∧ (∀ c, ((applyEvents st es).formName.data.head? = some c →
        isJsWhitespace c = false))
    ∧ (∀ c, ((applyEvents st es).formName.data.getLast? = some c →
        isJsWhitespace c = false))
    ∧ (jsTrim st.formName = "" → submitDisabled st = true) := by
  have hkeep := applyEvents_formName_fixed es st hfix
  have hdata : trimChars ((applyEvents st es).formName.data)
      = (applyEvents st es).formName.data := congrArg String.data hkeep
  refine ⟨rfl, hkeep, hkeep, ?_, ?_, ?_, ?_⟩
  · rw [createPayloadName, jsTrim_idem]
  · intro c hc
    exact trimChars_head_not_ws hdata hc
  · intro c hc
    exact trimChars_getLast_not_ws hdata hc
  · intro hempty
    simp [submitDisabled, hempty]

/-- Witness for C10 at the sample state with a padded input. -/
theorem form_input_trimmed_witness :
    jsTrim sampleState.formName = sampleState.formName
    ∧ ((handleInputChange sampleState (InputEvent.setName "  hello  ")).formName
          = jsTrim "  hello  "
      ∧ jsTrim (applyEvents sampleState [InputEvent.setName "  hello  "]).formName
          = (applyEvents sampleState [InputEvent.setName "  hello  "]).formName
      ∧ createPayloadName (applyEvents sampleState [InputEvent.setName "  hello  "])
          = (applyEvents sampleState [InputEvent.setName "  hello  "]).formName
      ∧ createPayloadName sampleState = jsTrim (createPayloadName sampleState)
      ∧ (∀ c, ((applyEvents sampleState [InputEvent.setName "  hello  "]).formName.data.head?
            = some c → isJsWhitespace c = false))
      ∧ (∀ c, ((applyEvents sampleState [InputEvent.setName "  hello  "]).formName.data.getLast?
            = some c → isJsWhitespace c = false))
      ∧ (jsTrim sampleState.formName = "" → submitDisabled sampleState = true)) :=
  ⟨by decide,
   form_input_trimmed sampleState "  hello  " [InputEvent.setName "  hello  "] (by decide)⟩

/-- Replacing every id-matching entry of a list by the entry that `find?`
located leaves the `find?` result unchanged. -/
theorem find?_map_replace (l : List ExampleTask) (id : Nat) (snap : ExampleTask)
    (h : l.find? (fun t => t.id == id) = some snap) :
    (l.map (fun t => if t.id == id then snap else t)).find? (fun t => t.id == id)
      = some snap := by
  induction l with
  | nil => simp at h
  | cons a l ih =>
    by_cases ha : (a.id == id) = true
    · rw [List.find?_cons_of_pos (p := fun (t : ExampleTask) => t.id == id) _ ha] at h
      have hsnap : a = snap := by injection h
      subst hsnap
      simp only [List.map_cons, ite_self]
      exact List.find?_cons_of_pos (p := fun (t : ExampleTask) => t.id == id) _ ha
    · rw [List.find?_cons_of_neg (p := fun (t : ExampleTask) => t.id == id) _ ha] at h
      simp only [List.map_cons, if_neg ha]
      rw [List.find?_cons_of_neg (p := fun (t : ExampleTask) => t.id == id) _ ha]
      exact ih h

/-- The task collection after a failed or excepted update equals the
original collection with every id-matching entry restored to the
snapshot. -/
theorem updateTaskPriority_failure_tasks (st : UpdateState) (id : Nat)
    (newP : TaskPriority) (snap : ExampleTask) (msg : String)
    (hfind : st.tasks.find? (fun t => t.id == id) = some snap) :
    (updateTaskPriority st id newP (UpdateOutcome.failure msg)).tasks
      = st.tasks.map (fun t => if t.id == id then snap else t) := by
  unfold updateTaskPriority
  rw [hfind]
  simp only [List.map_map]
  refine List.map_congr_left ?_
  intro t _
  by_cases h : (t.id == id) = true
  · simp [Function.comp, h]
  · simp [Function.comp, h]

/-- C1: an optimistic priority update (LOW to HIGH) that the server
rejects leaves the client-visible record at the pre-mutation snapshot
(priority LOW) after reconciliation, with an error message present and the
id absent from the "updating" set; the id is removed from the "updating"
set on every completion path (success, failure, or exception). -/
theorem update_rollback (st : UpdateState) (id : Nat) (snap : ExampleTask)
    (msg : String)
    (hfind : st.tasks.find? (fun t => t.id == id) = some snap)
    (hlow : snap.priority = TaskPriority.LOW) :
    ((updateTaskPriority st id TaskPriority.HIGH (UpdateOutcome.failure msg)).tasks.find?
        (fun t => t.id == id) = some snap
      ∧ snap.priority = TaskPriority.LOW
      ∧ (updateTaskPriority st id TaskPriority.HIGH (UpdateOutcome.failure msg)).updateError
          = some msg
      ∧ id ∉ (updateTaskPriority st id TaskPriority.HIGH
          (UpdateOutcome.failure msg)).updatingTasks)
    ∧ ∀ o : UpdateOutcome,
        id ∉ (updateTaskPriority st id TaskPriority.HIGH o).updatingTasks := by
  have hrelease : ∀ o : UpdateOutcome,
      id ∉ (updateTaskPriority st id TaskPriority.HIGH o).updatingTasks := by
    intro o
    unfold updateTaskPriority
    rw [hfind]
    cases o <;> exact not_mem_removeId _ _
  refine ⟨⟨?_, hlow, ?_, hrelease _⟩, hrelease⟩
  · rw [updateTaskPriority_failure_tasks st id TaskPriority.HIGH snap msg hfind]
    exact find?_map_replace st.tasks id snap hfind
  · unfold updateTaskPriority
    rw [hfind]

/-- Witness for C1 at the sample update state holding the LOW task. -/
theorem update_rollback_witness :
    sampleUpdateState.tasks.find? (fun t => t.id == 1) = some sampleLow
    ∧ sampleLow.priority = TaskPriority.LOW
    ∧ (((updateTaskPriority sampleUpdateState 1 TaskPriority.HIGH
          (UpdateOutcome.failure "HTTP error 500")).tasks.find?
            (fun t => t.id == 1) = some sampleLow
      ∧ sampleLow.priority = TaskPriority.LOW
      ∧ (updateTaskPriority sampleUpdateState 1 TaskPriority.HIGH
          (UpdateOutcome.failure "HTTP error 500")).updateError
            = some "HTTP error 500"
      ∧ 1 ∉ (updateTaskPriority sampleUpdateState 1 TaskPriority.HIGH
          (UpdateOutcome.failure "HTTP error 500")).updatingTasks)
    ∧ ∀ o : UpdateOutcome,
        1 ∉ (updateTaskPriority sampleUpdateState 1 TaskPriority.HIGH o).updatingTasks) :=
  ⟨by decide, rfl,
   update_rollback sampleUpdateState 1 sampleLow "HTTP error 500" (by decide) rfl⟩

/-- Every id present in the store is bounded by `maxId`. -/
theorem id_le_maxId (store : List ExampleTask) (t : ExampleTask)
    (ht : t ∈ store) : t.id ≤ maxId store := by
  induction store with
  | nil => simp at ht
  | cons a l ih =>
    rcases List.mem_cons.mp ht with rfl | hmem
    · exact Nat.le_max_left _ _
    · exact Nat.le_trans (ih hmem) (Nat.le_max_right _ _)

/-- C7: the create operation fails with a validation error (and no create
request is issued — the handler result is independent of any server
outcome and leaves the collection unchanged) whenever the name is missing
or empty after trimming; for every non-empty name the created task has
status UPCOMING, the provided or defaulted (MEDIUM) priority, and a fresh
id distinct from all existing ids. -/
theorem create_validation_and_result (st : ListState)
    (store : List ExampleTask) (name : String) (d : Option String)
    (p : Option TaskPriority) (now : Nat)
    (hempty : jsTrim st.formName = "")
    (hname : jsTrim name ≠ "") :
    (∀ o : CreateOutcome, (createTask st o).tasks = st.tasks
      ∧ (createTask st o).nameValidationError = some "Task name is required"
      ∧ ∀ o' : CreateOutcome, createTask st o = createTask st o')
    ∧ serviceCreate store none d p now = CreateResult.validationError
    ∧ (∀ n : String, jsTrim n = "" →
        serviceCreate store (some n) d p now = CreateResult.validationError)
    ∧ ∃ t : ExampleTask, serviceCreate store (some name) d p now = CreateResult.created t
        ∧ t.status = TaskStatus.UPCOMING
        ∧ t.priority = p.getD TaskPriority.MEDIUM
        ∧ ∀ u ∈ store, u.id ≠ t.id := by
  refine ⟨?_, rfl, ?_, ?_⟩
  · intro o
    refine ⟨?_, ?_, ?_⟩
    · unfold createTask validateForm
      simp [hempty]
    · unfold createTask validateForm
      simp [hempty]
    · intro o'
      unfold createTask validateForm
      simp [hempty]
  · intro n hn
    unfold serviceCreate
    simp [hn]
  · refine ⟨{ id := freshId store
              name := name
              description := d
              status := TaskStatus.UPCOMING
              priority := p.getD TaskPriority.MEDIUM
              createdAt := now
              updatedAt := now }, ?_, rfl, rfl, ?_⟩
    · unfold serviceCreate
      simp [hname]
    · intro u hu
      have hle := id_le_maxId store u hu
      show u.id ≠ freshId store
      simp only [freshId]
      omega

/-- Witness for C7 with an empty form, a padded valid name and a provided
HIGH priority over the sample store. -/
theorem create_validation_and_result_witness :
    jsTrim (resetForm sampleState).formName = ""
    ∧ jsTrim " New task " ≠ ""
    ∧ ((∀ o : CreateOutcome, (createTask (resetForm sampleState) o).tasks
          = (resetForm sampleState).tasks
      ∧ (createTask (resetForm sampleState) o).nameValidationError
          = some "Task name is required"
      ∧ ∀ o' : CreateOutcome,
          createTask (resetForm sampleState) o = createTask (resetForm sampleState) o')
    ∧ serviceCreate [sampleLow, sampleHigh] none none (some TaskPriority.HIGH) 40
        = CreateResult.validationError
    ∧ (∀ n : String, jsTrim n = "" →
        serviceCreate [sampleLow, sampleHigh] (some n) none (some TaskPriority.HIGH) 40
          = CreateResult.validationError)
    ∧ ∃ t : ExampleTask,
        serviceCreate [sampleLow, sampleHigh] (some " New task ") none
            (some TaskPriority.HIGH) 40 = CreateResult.created t
        ∧ t.status = TaskStatus.UPCOMING
        ∧ t.priority = (some TaskPriority.HIGH).getD TaskPriority.MEDIUM
        ∧ ∀ u ∈ [sampleLow, sampleHigh], u.id ≠ t.id) :=
  ⟨by decide, by decide,
   create_validation_and_result (resetForm sampleState) [sampleLow, sampleHigh]
     " New task " none (some TaskPriority.HIGH) 40 (by decide) (by decide)⟩

/-- Erasing a pending entry whose ids are duplicate-free erases exactly
its id from the id projection. -/
theorem map_fst_erase (pending : List (Nat × MutKind)) (id : Nat) (k : MutKind)
    (hnd : (pending.map Prod.fst).Nodup) (hmem : (id, k) ∈ pending) :
    (pending.erase (id, k)).map Prod.fst = (pending.map Prod.fst).erase id := by
  induction pending with
  | nil => simp at hmem
  | cons a l ih =>
    by_cases ha : a = (id, k)
    · subst ha
      rw [List.erase_cons_head, List.map_cons, List.erase_cons_head]
    · rw [List.map_cons, List.nodup_cons] at hnd
      have hmem' : (id, k) ∈ l := by
        rcases List.mem_cons.mp hmem with heq | h
        · exact absurd heq.symm ha
        · exact h
      have hfst : a.1 ≠ id := by
        intro hfst
        have hin : id ∈ l.map Prod.fst := List.mem_map.mpr ⟨(id, k), hmem', rfl⟩
        exact hnd.1 (hfst ▸ hin)
      rw [List.erase_cons_tail (by simpa using ha), List.map_cons, List.map_cons,
        List.erase_cons_tail (by simpa using hfst), ih hnd.2 hmem']

/-- The flight invariant holds initially. -/
theorem flightInv_initial : FlightInv initialFlight := by
  constructor
  · simp [initialFlight]
  · intro id
    simp [initialFlight]

/-- The flight invariant is preserved by every protocol step. -/
theorem flightInv_step {s s' : FlightState} (hInv : FlightInv s)
    (hstep : FStep s s') : FlightInv s' := by
  obtain ⟨hnd, hiff⟩ := hInv
  cases hstep with
  | start k id hguard =>
    have hnin : id ∉ s.inFlight := by
      simpa [controlsDisabled] using hguard
    have hid : id ∉ s.pending.map Prod.fst := fun hmem => hnin ((hiff id).mpr hmem)
    constructor
    · rw [List.map_cons, List.nodup_cons]
      exact ⟨hid, hnd⟩
    · intro j
      simp only [List.map_cons]
      rw [mem_insertId, List.mem_cons]
      constructor
      · rintro (rfl | hj)
        · exact Or.inl rfl
        · exact Or.inr ((hiff j).mp hj)
      · rintro (rfl | hj)
        · exact Or.inl rfl
        · exact Or.inr ((hiff j).mpr hj)
  | finish k id hmem =>
    have herase : (s.pending.erase (id, k)).map Prod.fst
        = (s.pending.map Prod.fst).erase id := map_fst_erase s.pending id k hnd hmem
    constructor
    · rw [herase]
      exact hnd.erase id
    · intro j
      rw [herase, mem_removeId, hnd.mem_erase_iff, hiff j, and_comm]

/-- Every reachable flight state satisfies the invariant. -/
theorem flightInv_reachable {s : FlightState} (h : FReachable s) :
    FlightInv s := by
  induction h with
  | init => exact flightInv_initial
  | step _ hstep ih => exact flightInv_step ih hstep

/-- C6: in every reachable state of the controller's mutation protocol, at
most one delete or update per record id is in flight (pending ids are
duplicate-free), the UI controls of an id are disabled exactly while a
mutation on it is in flight, and a new mutation on an id is only ever
issued from a state where the controls of that id are not disabled (the
in-flight set is consulted before starting). -/
theorem single_flight_per_id (s : FlightState) (h : FReachable s) :
    (∀ id : Nat, ((s.pending.map Prod.fst).count id) ≤ 1)
    ∧ (∀ id : Nat, (controlsDisabled s id = true ↔ id ∈ s.pending.map Prod.fst))
    ∧ (∀ (s' : FlightState) (k : MutKind) (id : Nat), FStep s s' →
        s'.pending = (id, k) :: s.pending → controlsDisabled s id = false) := by
  obtain ⟨hnd, hiff⟩ := flightInv_reachable h
  refine ⟨?_, ?_, ?_⟩
  · intro id
    exact List.nodup_iff_count_le_one.mp hnd id
  · intro id
    constructor
    · intro hc
      exact (hiff id).mp (by simpa [controlsDisabled] using hc)
    · intro hm
      have hin : id ∈ s.inFlight := (hiff id).mpr hm
      simpa [controlsDisabled] using hin
  · intro s' k id hstep hpend
    cases hstep with
    | start k' id' hguard =>
      have hpend' : (id', k') :: s.pending = (id, k) :: s.pending := hpend
      injection hpend' with h1 h2
      injection h1 with hid hk
      subst hid
      exact hguard
    | finish k' id' hmem' =>
      exfalso
      have hlen := congrArg List.length hpend
      have hle := List.length_erase_le (id', k') s.pending
      simp at hlen
      omega

/-- Witness for C6 at the reachable state obtained by starting a delete on
id 7 from the initial state. -/
theorem single_flight_per_id_witness :
    FReachable { inFlight := [7], pending := [(7, MutKind.deleteMut)] }
    ∧ ((∀ id : Nat,
        ((FlightState.mk [7] [(7, MutKind.deleteMut)]).pending.map Prod.fst).count id ≤ 1)
      ∧ (∀ id : Nat,
          (controlsDisabled (FlightState.mk [7] [(7, MutKind.deleteMut)]) id = true ↔
            id ∈ (FlightState.mk [7] [(7, MutKind.deleteMut)]).pending.map Prod.fst))
      ∧ (∀ (s' : FlightState) (k : MutKind) (id : Nat),
          FStep (FlightState.mk [7] [(7, MutKind.deleteMut)]) s' →
          s'.pending = (id, k) :: (FlightState.mk [7] [(7, MutKind.deleteMut)]).pending →
          controlsDisabled (FlightState.mk [7] [(7, MutKind.deleteMut)]) id = false)) := by
  have hstep : FStep initialFlight { inFlight := [7], pending := [(7, MutKind.deleteMut)] } := by
    have h := FStep.start initialFlight MutKind.deleteMut 7 (by decide)
    simpa [initialFlight, insertId] using h
  have hre : FReachable { inFlight := [7], pending := [(7, MutKind.deleteMut)] } :=
    FReachable.step FReachable.init hstep
  exact ⟨hre, single_flight_per_id _ hre⟩
